import Mathlib

/-!
Verification of the textit-api client library (spelling/morphology HTTP API
wrapper).  The development shallowly embeds the repository's Python code:

* `src/textit/utils.py`   — `_prepare_arg`, `generate_command`,
  `generate_payload`, `choose_response`, `get_func_list`, `sign_responses`;
* `src/textit/api.py`     — `check_result` (response classification);
* `src/textit/textit.py`  — the per-operation command builders, the
  batch `send_request` and the `_wrap_response` result shaping;
* `src/textit/types/*`    — `WordObject`, `NumeralObject`, `SpellerObject`,
  the word enumerations, the exception taxonomy.

Python runtime values (arguments and decoded JSON) are embedded as the
inductive `Val`.  Python `float` JSON numbers are carried as rationals
(`ℚ`); only order comparisons on them are modelled, which float comparison
realises exactly for the representable values involved.  Exceptions are
embedded as the `Exc` inductive; mutation (`self.request`, in-place
`list.sort`) is embedded as explicit state passing; the aiohttp transport
is a function parameter `Val → Except Exc Val`.
-/

namespace Textit

/-- A Python runtime value as the repository manipulates it: `None`,
booleans, `int`s, `float`s (JSON numbers, as rationals), strings,
`enum.Enum` members of the integer-valued enums of `types/word.py`
(carried as their `.value`), lists and dicts (as ordered key/value lists,
mirroring Python dict insertion order; keys are unique). -/
inductive Val where
  | null
  | bool (b : Bool)
  | int (n : Int)
  | num (q : ℚ)
  | str (s : String)
  | enum (v : Int)
  | arr (xs : List Val)
  | obj (fs : List (String × Val))

/-- A Python dict with string keys, e.g. one command or one raw candidate
result. -/
abbrev PyDict := List (String × Val)

/-- `d.get(k)` on a Python dict: the value, or `None` (here `Option.none`)
when absent. -/
def objGet (d : PyDict) (k : String) : Option Val :=
  (d.find? (fun p => p.1 = k)).map (fun p => p.2)

/-- Python truthiness (`bool(v)`) for the embedded values: `None` and empty
collections/strings and zero numbers are falsy; enum members are truthy. -/
def Val.truthy : Val → Bool
  | .null => false
  | .bool b => b
  | .int n => decide (n ≠ 0)
  | .num q => decide (q ≠ 0)
  | .str s => decide (s ≠ "")
  | .enum _ => true
  | .arr xs => !xs.isEmpty
  | .obj fs => !fs.isEmpty

/-- Truthiness of `d.get(k)`: a missing key yields Python `None`, which is
falsy. -/
def truthyO : Option Val → Bool
  | Option.none => false
  | some v => v.truthy

/-- Whether the value is Python `None` (`arg is None`). -/
def Val.isNull : Val → Bool
  | .null => true
  | _ => false

/-- The character-level recursion behind Python `s.split(" ")`: splitting
on every single space character, keeping empty pieces, with `[""]` for the
empty string. -/
def splitSpaceChars : List Char → List (List Char)
  | [] => [[]]
  | c :: cs =>
    let r := splitSpaceChars cs
    if c = ' ' then [] :: r
    else
      match r with
      | t :: ts => (c :: t) :: ts
      | [] => [[c]]

/-- Python `word.split(" ")` as the client methods call it: a split on the
literal space character `" "` (not on general whitespace). -/
def pySplitSpace (w : String) : List String :=
  (splitSpaceChars w.data).map (fun t => String.mk t)

/-- Python `key.startswith("_")`. -/
def pyStartsUnderscore (k : String) : Bool :=
  match k.data with
  | c :: _ => c = '_'
  | [] => false

mutual

/-- `utils._prepare_arg`: stringify arguments.  The Python branch order is
`None` / `list` / `dict` / `Enum` / `bool` / `int` / fall-through, mirrored
here.  `None` becomes `""`; an enum member becomes `str(member.value)`
(the `types/word.py` enums all have integer values); booleans become
lowercase `"true"`/`"false"`; integers their decimal string. -/
def prepare_arg : Val → Val
  | .null => .str ""
  | .arr xs => .arr (prepare_arg_list xs)
  | .obj fs => .obj (prepare_arg_dict fs)
  | .enum v => .str (toString v)
  | .bool b => .str (if b then "true" else "false")
  | .int n => .str (toString n)
  | .num q => .num q
  | .str s => .str s

/-- The list comprehension `[_prepare_arg(v) for v in arg]`. -/
def prepare_arg_list : List Val → List Val
  | [] => []
  | x :: xs => prepare_arg x :: prepare_arg_list xs

/-- The dict comprehension `{k: _prepare_arg(v) for k, v in arg.items()}`. -/
def prepare_arg_dict : List (String × Val) → List (String × Val)
  | [] => []
  | (k, v) :: fs => (k, prepare_arg v) :: prepare_arg_dict fs

end

/-- `utils.generate_command(**kwargs)`: drop keys starting with `_` and
keys whose value is `None`, and `_prepare_arg` the remaining values, in
order.  (Inside nested dicts `None` values are NOT dropped: they reach
`_prepare_arg` and come out as `""`.) -/
def generate_command (kwargs : List (String × Val)) : PyDict :=
  (kwargs.filter (fun p => !(pyStartsUnderscore p.1) && !(p.2.isNull))).map
    (fun p => (p.1, prepare_arg p.2))

/-- A command as built by `generate_command`: a Python dict. -/
abbrev Cmd := PyDict

/-- `utils.generate_payload`: wrap the command list (a single dict becomes
a one-element list) as `{"commands": [commands], "href": <help URL>}`. -/
def generate_payload (commands : List Cmd) : Val :=
  .obj [("commands", .arr [.arr (commands.map Val.obj)]),
        ("href", .str "https://textit.ego-ai.tech/api/1.0/help")]

/-- `utils.get_func_list`: `command.get("func")` of each command. -/
def get_func_list (commands : List Cmd) : List (Option Val) :=
  commands.map (fun c => objGet c "func")

/-- The sort key `lambda x: x.get("probability")` of `choose_response` as
a numerator/denominator pair, for the numeric probability values the
theorems quantify over (Python compares the raw keys with `<`, which on
numbers is exactly rational comparison; non-numeric keys would raise
`TypeError` in Python and are outside the modelled domain — see
`hasNumProb`). -/
def probNum (r : PyDict) : Int × Nat :=
  match objGet r "probability" with
  | some (.int n) => (n, 1)
  | some (.num q) => (q.num, q.den)
  | _ => (0, 1)

/-- Numeric comparison `key(r) <= key(s)` by cross-multiplication (the
denominators are positive). -/
def keyLE (r s : PyDict) : Bool :=
  decide ((probNum r).1 * ((probNum s).2 : Int) ≤ (probNum s).1 * ((probNum r).2 : Int))

/-- Numeric comparison `key(r) < key(s)`. -/
def keyLT (r s : PyDict) : Bool := !(keyLE s r)

/-- The sort key of a candidate as a rational number, for stating the
ordering properties. -/
def probKey (r : PyDict) : ℚ :=
  ((probNum r).1 : ℚ) / ((probNum r).2 : ℚ)

/-- The candidate's `"probability"` is present, numeric and truthy
(non-zero) — the domain on which the `choose_response` sort is modelled. -/
def hasNumProb (r : PyDict) : Bool :=
  match objGet r "probability" with
  | some (.int n) => decide (n ≠ 0)
  | some (.num q) => decide (q ≠ 0)
  | _ => false

/-- Stable insertion of a candidate into a key-sorted list: the new element
goes before the first element whose key it does not exceed, hence after all
earlier elements with an equal key. -/
def insertAsc (x : PyDict) : List PyDict → List PyDict
  | [] => [x]
  | y :: ys => if keyLE x y then x :: y :: ys else y :: insertAsc x ys

/-- CPython `list.sort(key=lambda x: x.get("probability"))`: a stable
ascending sort by key.  Any stable sort realises the same output on a total
preorder of keys; a stable insertion sort is used here. -/
def sortByProb : List PyDict → List PyDict
  | [] => []
  | x :: xs => insertAsc x (sortByProb xs)

/-- `utils.choose_response`, with the in-place `list.sort` mutation made
explicit: the pair is (returned value, final state of the caller's list).
Empty list: `None`, untouched.  All candidates with truthy
`"probability"`: sort ascending in place, return the first element.
Otherwise: return the first element, untouched. -/
def choose_response_run (responses : List PyDict) : Option PyDict × List PyDict :=
  if responses.isEmpty then (Option.none, responses)
  else if responses.all (fun r => truthyO (objGet r "probability")) then
    let s := sortByProb responses
    (s.head?, s)
  else (responses.head?, responses)

/-- The value `utils.choose_response` returns. -/
def choose_response (responses : List PyDict) : Option PyDict :=
  (choose_response_run responses).1

/-- The first element of the list attaining the minimum key — the
specification-side description of what a stable ascending sort followed by
`[0]` selects. -/
def firstMinBy : List PyDict → Option PyDict
  | [] => Option.none
  | x :: xs =>
    match firstMinBy xs with
    | Option.none => some x
    | some m => if keyLT m x then some m else some x

/-- The exception taxonomy of `types/exceptions.py`, together with the
Python builtin exceptions the embedded code can raise (`TypeError`,
`ValueError`, `AttributeError`, `IndexError`).  Message payloads are kept
only where a claim inspects them (`apiError`).  Note that
`types/exceptions.py` defines NO `BatchProcessingError`, although
`textit.send_request` tries to raise one: that lookup itself fails with
the builtin `AttributeError`, so no such constructor exists here. -/
inductive Exc where
  | networkError
  | apiError (msg : String)
  | badRequest
  | notFound
  | conflict
  | unauthorized
  | toLongText
  | aLotOfWords
  | negativeNumber
  | typeError
  | valueError
  | attributeError
  | indexError
deriving DecidableEq

/-- Sequential evaluation of a Python list comprehension whose body may
raise: the first raised exception propagates. -/
def mapExc (f : α → Except Exc β) : List α → Except Exc (List β)
  | [] => .ok []
  | x :: xs =>
    match f x with
    | .error e => .error e
    | .ok y =>
      match mapExc f xs with
      | .error e => .error e
      | .ok ys => .ok (y :: ys)

/-- `types/word.py` `WordObject`.  The morphological-decomposition slots
default to `""` (any provided value is stored unchecked, so the slots hold
a `Val`); the enum-typed slots are coerced through their enum class and
are carried as `Option Nat` holding the member's integer value (`none` =
still the class-attribute default); `type` defaults to a fresh `WordType`
instance (`none` here) and is stored unchecked when provided.  Python
field names `prefix`/`postfix` are spelled `prefix_`/`postfix_`. -/
structure WordObject where
  word : Val := .str ""
  part : Option Nat := Option.none
  case_ : Option Nat := Option.none
  form : Option Nat := Option.none
  gender : Option Nat := Option.none
  kind : Option Nat := Option.none
  animate : Option Nat := Option.none
  number : Option Nat := Option.none
  person : Option Nat := Option.none
  tense : Option Nat := Option.none
  prefix_ : Val := .str ""
  base : Val := .str ""
  interfix : Val := .str ""
  suffix : Val := .str ""
  ending : Val := .str ""
  postfix_ : Val := .str ""
  initial : Val := .str ""
  lemma_ : Val := .str ""
  type : Option Val := Option.none

/-- Coercion of a kwarg value through an integer-valued `enum.Enum` class
with members valued `1..maxV` (`WordPart(value)` etc.): accepts the exact
integers, equal floats, and `True` (Python `True == 1`); anything else
raises `ValueError`. -/
def enumCoerce (maxV : Nat) : Val → Except Exc Nat
  | .int n => if 1 ≤ n ∧ n ≤ (maxV : Int) then .ok n.toNat else .error .valueError
  | .num q => if q.den = 1 ∧ 1 ≤ q.num ∧ q.num ≤ (maxV : Int) then .ok q.num.toNat else .error .valueError
  | .bool b => if b ∧ 1 ≤ maxV then .ok 1 else .error .valueError
  | _ => .error .valueError

/-- One iteration of `WordObject.__init__`'s kwargs loop: skip the key if
the value is `None` or the key is not an attribute; coerce through the
enum class when the attribute slot is enum-typed; otherwise store the raw
value. -/
def WordObject.setField (w : WordObject) (k : String) (v : Val) : Except Exc WordObject :=
  match v with
  | .null => .ok w
  | _ =>
    if k = "word" then .ok { w with word := v }
    else if k = "part" then (enumCoerce 14 v).map (fun n => { w with part := some n })
    else if k = "case" then (enumCoerce 6 v).map (fun n => { w with case_ := some n })
    else if k = "form" then (enumCoerce 4 v).map (fun n => { w with form := some n })
    else if k = "gender" then (enumCoerce 4 v).map (fun n => { w with gender := some n })
    else if k = "kind" then (enumCoerce 2 v).map (fun n => { w with kind := some n })
    else if k = "animate" then (enumCoerce 2 v).map (fun n => { w with animate := some n })
    else if k = "number" then (enumCoerce 2 v).map (fun n => { w with number := some n })
    else if k = "person" then (enumCoerce 3 v).map (fun n => { w with person := some n })
    else if k = "tense" then (enumCoerce 3 v).map (fun n => { w with tense := some n })
    else if k = "prefix" then .ok { w with prefix_ := v }
    else if k = "base" then .ok { w with base := v }
    else if k = "interfix" then .ok { w with interfix := v }
    else if k = "suffix" then .ok { w with suffix := v }
    else if k = "ending" then .ok { w with ending := v }
    else if k = "postfix" then .ok { w with postfix_ := v }
    else if k = "initial" then .ok { w with initial := v }
    else if k = "lemma" then .ok { w with lemma_ := v }
    else if k = "type" then .ok { w with type := some v }
    else .ok w

/-- The kwargs loop of `WordObject.__init__`, in dict order. -/
def WordObject.applyKwargs (w : WordObject) : PyDict → Except Exc WordObject
  | [] => .ok w
  | (k, v) :: rest =>
    match WordObject.setField w k v with
    | .ok w2 => WordObject.applyKwargs w2 rest
    | .error e => .error e

/-- `WordObject(**d)`. -/
def WordObject.ofKwargs (d : PyDict) : Except Exc WordObject :=
  WordObject.applyKwargs {} d

/-- `types/numeral.py` `NumeralObject(number, text)`: both parameters are
required, and `**d` with any other key raises `TypeError`. -/
structure NumeralObject where
  number : Val
  text : Val

/-- `NumeralObject(**d)`. -/
def NumeralObject.ofKwargs (d : PyDict) : Except Exc NumeralObject :=
  if d.all (fun p => p.1 = "number" ∨ p.1 = "text") then
    match objGet d "number", objGet d "text" with
    | some n, some t => .ok { number := n, text := t }
    | _, _ => .error .typeError
  else .error .typeError

/-- `types/speller.py` `SpellerObject(word, position, correct=None)`:
`word` and `position` required, `correct` optional, extra keys raise
`TypeError`. -/
structure SpellerObject where
  word : Val
  position : Val
  correct : Option Val

/-- `SpellerObject(**d)`. -/
def SpellerObject.ofKwargs (d : PyDict) : Except Exc SpellerObject :=
  if d.all (fun p => p.1 = "word" ∨ p.1 = "position" ∨ p.1 = "correct") then
    match objGet d "word", objGet d "position" with
    | some w, some pos => .ok { word := w, position := pos, correct := objGet d "correct" }
    | _, _ => .error .typeError
  else .error .typeError

/-- Python attribute access `.get` requires a dict: a raw candidate that is
consumed by `choose_response` must be a dict, else `AttributeError`.  (The
model checks dict-ness of all candidates up front; CPython would raise at
the first non-dict actually touched — indistinguishable for the claims.) -/
def asDict : Val → Except Exc PyDict
  | .obj fs => .ok fs
  | _ => .error .attributeError

/-- One entry of the comprehension `[WordObject(**word) if word else None
for word in response]`: a falsy candidate yields a `None` placeholder; a
truthy dict builds a record; a truthy non-dict raises `TypeError`. -/
def wordEntry (v : Val) : Except Exc (Option WordObject) :=
  if v.truthy then
    match v with
    | .obj fs =>
      match WordObject.ofKwargs fs with
      | .ok w => .ok (some w)
      | .error e => .error e
    | _ => .error .typeError
  else .ok Option.none

/-- The shaped result of one command, as `_wrap_response` returns it.  The
Python function returns heterogeneous values; the embedding tags them.
`nothing` is the implicit `None` returned for an unrecognised function
name. -/
inductive Output where
  | words (ws : Option (List (Option WordObject)))
  | selected (w : Option WordObject)
  | numeralOut (n : Option NumeralObject)
  | spellerOut (s : Option SpellerObject)
  | textOut (t : Option Val)
  | nothing

/-- The `"func"` value of a signed response as the string it is compared
against (`APIMethod` members evaluate to plain strings); a missing or
non-string value matches no branch. -/
def fname : Option Val → Option String
  | some (.str s) => some s
  | _ => Option.none

/-- The CORRECT/HINT/COGNATE/SYNONYM arm of `_wrap_response`:
`[WordObject(**word) if word else None for word in response] if response
else None`. -/
def wrapWords (response : Val) : Except Exc Output :=
  if response.truthy then
    match response with
    | .arr ws =>
      match mapExc wordEntry ws with
      | .ok es => .ok (.words (some es))
      | .error e => .error e
    | _ => .error .typeError
  else .ok (.words Option.none)

/-- The WORD/SET_FORM arm of `_wrap_response`:
`WordObject(**choose_response(response)) if response else None`. -/
def wrapSelected (response : Val) : Except Exc Output :=
  if response.truthy then
    match response with
    | .arr cs =>
      match mapExc asDict cs with
      | .ok ds =>
        match choose_response ds with
        | some d =>
          match WordObject.ofKwargs d with
          | .ok w => .ok (.selected (some w))
          | .error e => .error e
        | Option.none => .error .typeError
      | .error e => .error e
    | _ => .error .typeError
  else .ok (.selected Option.none)

/-- The NUMERAL arm of `_wrap_response`:
`NumeralObject(**choose_response(response)) if response else None`. -/
def wrapNumeral (response : Val) : Except Exc Output :=
  if response.truthy then
    match response with
    | .arr cs =>
      match mapExc asDict cs with
      | .ok ds =>
        match choose_response ds with
        | some d =>
          match NumeralObject.ofKwargs d with
          | .ok n => .ok (.numeralOut (some n))
          | .error e => .error e
        | Option.none => .error .typeError
      | .error e => .error e
    | _ => .error .typeError
  else .ok (.numeralOut Option.none)

/-- The SPELLER arm of `_wrap_response`:
`SpellerObject(**response) if response else None`. -/
def wrapSpeller (response : Val) : Except Exc Output :=
  if response.truthy then
    match response with
    | .obj fs =>
      match SpellerObject.ofKwargs fs with
      | .ok s => .ok (.spellerOut (some s))
      | .error e => .error e
    | _ => .error .typeError
  else .ok (.spellerOut Option.none)

/-- The LAT_TO_CYR arm of `_wrap_response`:
`response[0].get("text") if response else None`. -/
def wrapText (response : Val) : Except Exc Output :=
  if response.truthy then
    match response with
    | .arr (x :: _) =>
      match x with
      | .obj fs => .ok (.textOut (objGet fs "text"))
      | _ => .error .attributeError
    | _ => .error .typeError
  else .ok (.textOut Option.none)

/-- `textit._wrap_response(func_name, response)`: dispatch on the function
name exactly as the Python `in`-tuple chain does (`APIMethod.CORRECT`
etc. are the strings `"correct"`, …, `"setform"`, …, `"lattocyr"`); an
unrecognised name falls through to `None`. -/
def wrap_response (func : Option Val) (response : Val) : Except Exc Output :=
  match fname func with
  | Option.none => .ok .nothing
  | some s =>
    if s = "correct" ∨ s = "hint" ∨ s = "cognate" ∨ s = "synonym" then wrapWords response
    else if s = "word" ∨ s = "setform" then wrapSelected response
    else if s = "numeral" then wrapNumeral response
    else if s = "speller" then wrapSpeller response
    else if s = "lattocyr" then wrapText response
    else .ok .nothing

/-- The result shape `_wrap_response` guarantees per operation kind: the
word-list variant for CORRECT/HINT/COGNATE/SYNONYM, the selected-word
variant for WORD/SET_FORM, the numeral variant for NUMERAL, the speller
variant for SPELLER, the plain-text variant for LAT_TO_CYR, and the
implicit `None` for anything else. -/
def shapedPer (func : Option Val) (o : Output) : Prop :=
  match fname func with
  | Option.none => o = Output.nothing
  | some s =>
    if s = "correct" ∨ s = "hint" ∨ s = "cognate" ∨ s = "synonym" then ∃ ws, o = Output.words ws
    else if s = "word" ∨ s = "setform" then ∃ w, o = Output.selected w
    else if s = "numeral" then ∃ n, o = Output.numeralOut n
    else if s = "speller" then ∃ sp, o = Output.spellerOut sp
    else if s = "lattocyr" then ∃ t, o = Output.textOut t
    else o = Output.nothing

/-- The comprehension of `utils.sign_responses`, index-tracked:
`[{"func": f, "response": responses[i]} for i, f in enumerate(func_list)]`;
the signed dict is embedded as the pair (func, response), and an
out-of-range index raises `IndexError`. -/
def sign_go (responses : List Val) (i : Nat) : List (Option Val) → Except Exc (List (Option Val × Val))
  | [] => .ok []
  | f :: fs =>
    match responses.get? i with
    | some r =>
      match sign_go responses (i + 1) fs with
      | .ok rest => .ok ((f, r) :: rest)
      | .error e => .error e
    | Option.none => .error .indexError

/-- `utils.sign_responses(func_list, responses)`. -/
def sign_responses (funcList : List (Option Val)) (responses : List Val) : Except Exc (List (Option Val × Val)) :=
  sign_go responses 0 funcList

/-- Observable events of a client call, used to state the "never reaches
the transport" / "cleared before the network call" claims.  A
`transportCalled` event records the pending request list at the moment the
transport coroutine is entered. -/
inductive Ev where
  | payloadBuilt (p : Val)
  | transportCalled (p : Val) (pending : List Cmd)

/-- The tail of `TextIT.send_request` from the `make_request` call on:
the transport returns `check_result`'s value or raises; its value must be
a list to be indexed by `sign_responses` (`TypeError` otherwise); the
signed responses are shaped one by one by `_wrap_response`. -/
def send_request_result (transport : Val → Except Exc Val) (funcList : List (Option Val))
    (payload : Val) : Except Exc (List Output) :=
  match transport payload with
  | .error e => .error e
  | .ok respVal =>
    match respVal with
    | .arr responses =>
      match sign_responses funcList responses with
      | .error e => .error e
      | .ok signed => mapExc (fun p => wrap_response p.1 p.2) signed
    | _ => .error .typeError

/-- `TextIT.send_request`, with the `self.request` state and the transport
made explicit.  Mirrors the source line by line: empty-batch guard;
`get_func_list`; `generate_payload`; `self.request = []` (the `cleared`
state recorded by the `transportCalled` event); then the transport round
trip and response shaping of `send_request_result`.  Whatever the
transport and the shaping do, the payload has been built and the transport
entered with the pending list already cleared.

For an empty batch the source executes
`raise exceptions.BatchProcessingError(...)`, but `types/exceptions.py`
defines no class of that name (and the docstring nevertheless declares
`:raises BatchProcessingError:`): evaluating the raise statement fails at
the attribute lookup itself, so what actually propagates is Python's
builtin `AttributeError` — still before any payload is built and before
the transport is touched. -/
def send_request_traced (transport : Val → Except Exc Val) (pending : List Cmd) :
    Except Exc (List Output) × List Ev :=
  if pending.isEmpty then (.error .attributeError, [])
  else
    let funcList := get_func_list pending
    let payload := generate_payload pending
    let cleared : List Cmd := []
    (send_request_result transport funcList payload,
     [Ev.payloadBuilt payload, Ev.transportCalled payload cleared])

/-- The validation-and-command-construction phase of `TextIT.correct`:
raise `ALotOfWords` when `len(word.split(" ")) > 1` (a split on the
literal space character), else build the command. -/
def correct_cmd (word : String) : Except Exc Cmd :=
  if (pySplitSpace word).length > 1 then .error .aLotOfWords
  else .ok (generate_command
    [("func", .str "correct"), ("pars", .obj [("word", .str word)])])

/-- The validation-and-command-construction phase of `TextIT.word_info`
(wire name `"word"`). -/
def word_info_cmd (word : String) : Except Exc Cmd :=
  if (pySplitSpace word).length > 1 then .error .aLotOfWords
  else .ok (generate_command
    [("func", .str "word"), ("pars", .obj [("word", .str word)])])

/-- The validation-and-command-construction phase of `TextIT.cognate`. -/
def cognate_cmd (word : String) : Except Exc Cmd :=
  if (pySplitSpace word).length > 1 then .error .aLotOfWords
  else .ok (generate_command
    [("func", .str "cognate"), ("pars", .obj [("word", .str word)])])

/-- The validation-and-command-construction phase of `TextIT.synonym`. -/
def synonym_cmd (word : String) : Except Exc Cmd :=
  if (pySplitSpace word).length > 1 then .error .aLotOfWords
  else .ok (generate_command
    [("func", .str "synonym"), ("pars", .obj [("word", .str word)])])

/-- An optional enum-member argument of `TextIT.set_form` as the Python
value it passes in `pars`: the member, or `None`. -/
def optEnum : Option Int → Val
  | some v => .enum v
  | Option.none => .null

/-- The validation-and-command-construction phase of `TextIT.set_form`
(wire name `"setform"`); the eight morphological selectors default to
`None` and are passed into `pars` unconditionally. -/
def set_form_cmd (word : String) (part number gender case_ tense person form kind : Option Int) :
    Except Exc Cmd :=
  if (pySplitSpace word).length > 1 then .error .aLotOfWords
  else .ok (generate_command
    [("func", .str "setform"),
     ("pars", .obj [("word", .str word), ("part", optEnum part), ("number", optEnum number),
                    ("gender", optEnum gender), ("case", optEnum case_), ("tense", optEnum tense),
                    ("person", optEnum person), ("form", optEnum form), ("kind", optEnum kind)])])

/-- The validation-and-command-construction phase of `TextIT.numeral`:
`NegativeNumber` for a negative count, `ALotOfWords` for a multi-token
unit word, else the command.  The call-site defaults are
`case = WordCase.NOMINATIVE` (`Val.enum 1`), `direct = "count"`,
`reduce = False`, `format = "string"` (`NumeralType`/`NumeralFormat`
members are plain strings produced by the `Item` descriptor). -/
def numeral_cmd (number : Int) (word : String) (case_ direct : Val) (reduce : Bool) (format : Val) :
    Except Exc Cmd :=
  if number < 0 then .error .negativeNumber
  else if (pySplitSpace word).length > 1 then .error .aLotOfWords
  else .ok (generate_command
    [("func", .str "numeral"),
     ("pars", .obj [("number", .int number), ("word", .str word), ("case", case_),
                    ("direct", direct), ("reduce", .bool reduce), ("format", format)])])

/-- The immediate-send tail shared by the client methods (`immediately =
True`): a validation failure propagates before a payload exists or the
transport is touched; otherwise `generate_payload` wraps the single
command and `make_request` posts it.  `pending` is the client's
`self.request`, untouched by immediate calls, recorded at the transport
call. -/
def single_op_send (transport : Val → Except Exc Val) (pending : List Cmd)
    (cmdE : Except Exc Cmd) : Except Exc Val × List Ev :=
  match cmdE with
  | .error e => (.error e, [])
  | .ok c =>
    let payload := generate_payload [c]
    (transport payload, [Ev.payloadBuilt payload, Ev.transportCalled payload pending])

/-- The decode-and-unwrap step of `api.check_result`: `json.loads` inside
`try … except ValueError` (a decode failure yields `{}`), then the wire
quirk `if isinstance(result_json, list): result_json = result_json[0]`.
The argument is the outcome of `json.loads` (`none` = `ValueError`); JSON
decoding itself is the out-of-scope transport collaborator.  Indexing an
empty list raises `IndexError`, which the `except ValueError` does NOT
catch. -/
def classify_decoded : Option Val → Except Exc Val
  | Option.none => .ok (.obj [])
  | some (.arr []) => .error .indexError
  | some (.arr (x :: _)) => .ok x
  | some v => .ok v

/-- Python `str()` of an optional value, as interpolated into the
`APIError` message (`f"{error.get('message')} [{error.get('status')}]"`).
Exact for the string/None/bool/int cases; container and float renderings
are placeholders never inspected by a claim. -/
def pyStr : Option Val → String
  | Option.none => "None"
  | some .null => "None"
  | some (.str s) => s
  | some (.bool true) => "True"
  | some (.bool false) => "False"
  | some (.int n) => toString n
  | some (.num q) => toString q
  | some (.enum v) => toString v
  | some (.arr _) => "<list>"
  | some (.obj _) => "<dict>"

/-- The `"error"` field of the classified object, when it is a dict
(`isinstance(result_json, dict)` guard). -/
def errorField : Val → Option Val
  | .obj fs => objGet fs "error"
  | _ => Option.none

/-- The HTTP-status dispatch tail of `api.check_result`: 200–226 returns
the classified object; 400/404/409/401/403 map to their exceptions; ≥ 500
and any unmatched status raise `APIError`. -/
def statusDispatch (statusCode : Nat) (body : String) (resultJson : Val) : Except Exc Val :=
  if 200 ≤ statusCode ∧ statusCode ≤ 226 then .ok resultJson
  else if statusCode = 400 then .error .badRequest
  else if statusCode = 404 then .error .notFound
  else if statusCode = 409 then .error .conflict
  else if statusCode = 401 ∨ statusCode = 403 then .error .unauthorized
  else if 500 ≤ statusCode then .error (.apiError ("Some error while getting response: " ++ body))
  else .error (.apiError (body ++ " [" ++ toString statusCode ++ "]"))

/-- `api.check_result(content_type, status_code, body)`: content-type
guard (`NetworkError` unless `text/html`), decode/unwrap, the walrus
truthy-`"error"`-field check (which outranks every status code and needs
the field to be a dict to read `message`/`status` from), then the status
dispatch.  `decoded` is the `json.loads` outcome for `body`. -/
def check_result (contentType : String) (statusCode : Nat) (body : String)
    (decoded : Option Val) : Except Exc Val :=
  if contentType ≠ "text/html" then .error .networkError
  else
    match classify_decoded decoded with
    | .error e => .error e
    | .ok resultJson =>
      match errorField resultJson with
      | some err =>
        if err.truthy then
          match err with
          | .obj ef =>
            .error (.apiError (pyStr (objGet ef "message") ++ " [" ++ pyStr (objGet ef "status") ++ "]"))
          | _ => .error .attributeError
        else statusDispatch statusCode body resultJson
      | Option.none => statusDispatch statusCode body resultJson

/-- The classified object does NOT trigger the walrus `"error"` check of
`check_result`: either it is not a dict, or its `"error"` field is absent
or falsy. -/
def noTruthyError (j : Val) : Bool := !(truthyO (errorField j))

/-! ## Theorems -/

/-- Claim C3 (code bug): for every client whose pending batch is empty,
calling `send_request` does fail before constructing a payload and never
reaches the transport (for any transport the event trace is empty), but
the exception is NOT the `BatchProcessingError` that the claim and the
method's own docstring (`:raises BatchProcessingError:`) promise:
`types/exceptions.py` defines no such class, so the raise statement at
`textit.py:325` itself fails at attribute lookup and the builtin
`AttributeError` propagates instead. -/
theorem send_request_empty_batch_attribute_error (transport : Val → Except Exc Val) :
    send_request_traced transport [] = (.error .attributeError, []) := rfl

/-- Claim C9: for every non-empty pending batch, submission clears the
pending batch before the network call: the trace is exactly one
`payloadBuilt` followed by one `transportCalled`, and every
`transportCalled` event of the run carries the empty pending list — no
submitted command is still pending while the request is in flight,
whatever the transport then does. -/
theorem send_request_clears_before_transport (transport : Val → Except Exc Val)
    (pending : List Cmd) (h : pending ≠ []) :
    (send_request_traced transport pending).2
      = [Ev.payloadBuilt (generate_payload pending),
         Ev.transportCalled (generate_payload pending) []] ∧
    (∀ p st, Ev.transportCalled p st ∈ (send_request_traced transport pending).2 →
      st = ([] : List Cmd)) := by
  have hne : pending.isEmpty = false := by
    cases pending with
    | nil => exact absurd rfl h
    | cons c cs => rfl
  have hevs : (send_request_traced transport pending).2
      = [Ev.payloadBuilt (generate_payload pending),
         Ev.transportCalled (generate_payload pending) []] := by
    unfold send_request_traced
    rw [if_neg (by simp [hne])]
  refine ⟨hevs, ?_⟩
  intro p st hmem
  rw [hevs] at hmem
  rcases List.mem_cons.mp hmem with h1 | h1
  · exact absurd h1 (by simp)
  · rcases List.mem_cons.mp h1 with h2 | h2
    · have := (Ev.transportCalled.injEq _ _ _ _).mp h2
      exact this.2
    · exact absurd h2 (by simp)

/-- Claim C9 witness: a concrete two-command batch instantiating the
trace equation. -/
theorem send_request_clears_before_transport_witness :
    (send_request_traced (fun _ => .ok (.arr [.arr [], .arr []]))
        [[("func", Val.str "correct")], [("func", Val.str "numeral")]]).2
      = [Ev.payloadBuilt (generate_payload [[("func", Val.str "correct")], [("func", Val.str "numeral")]]),
         Ev.transportCalled (generate_payload [[("func", Val.str "correct")], [("func", Val.str "numeral")]]) []] :=
  (send_request_clears_before_transport (fun _ => .ok (.arr [.arr [], .arr []]))
    [[("func", Val.str "correct")], [("func", Val.str "numeral")]] (by simp)).1

/-- Claim C8 counterexample: the claim promises `ALotOfWords` (the spec's
`TooManyWords`) for every input with more than one WHITESPACE-separated
token, before any network interaction.  The guard is
`len(word.split(" ")) > 1`, a split on the space character only: the
input `"a\tb"` has two whitespace-separated tokens but no space, the
space-split sees a single token, no exception is raised, and the
transport IS reached. -/
theorem single_word_guard_tab_cex :
    (pySplitSpace "a\tb").length = 1 ∧
    (single_op_send (fun _ => .ok (.arr [.arr []])) [] (correct_cmd "a\tb")).1
      = .ok (.arr [.arr []]) ∧
    (single_op_send (fun _ => .ok (.arr [.arr []])) [] (correct_cmd "a\tb")).2
      = [Ev.payloadBuilt (generate_payload [[("func", Val.str "correct"), ("pars", Val.obj [("word", Val.str "a\tb")])]]),
         Ev.transportCalled (generate_payload [[("func", Val.str "correct"), ("pars", Val.obj [("word", Val.str "a\tb")])]]) []] :=
  ⟨rfl, rfl, rfl⟩

/-- Claim C8 (amended): for every single-word operation (CORRECT,
WORD_INFO, SET_FORM, COGNATE, SYNONYM) and every input containing more
than one SPACE-separated token (`len(word.split(" ")) > 1`), the call
fails with `ALotOfWords` before any network interaction: no command is
built, no payload exists, and the event trace is empty for any
transport. -/
theorem single_word_guard_space (transport : Val → Except Exc Val) (pending : List Cmd)
    (word : String) (part number gender case_ tense person form kind : Option Int)
    (h : (pySplitSpace word).length > 1) :
    single_op_send transport pending (correct_cmd word) = (.error .aLotOfWords, []) ∧
    single_op_send transport pending (word_info_cmd word) = (.error .aLotOfWords, []) ∧
    single_op_send transport pending
      (set_form_cmd word part number gender case_ tense person form kind)
      = (.error .aLotOfWords, []) ∧
    single_op_send transport pending (cognate_cmd word) = (.error .aLotOfWords, []) ∧
    single_op_send transport pending (synonym_cmd word) = (.error .aLotOfWords, []) := by
  have hc : correct_cmd word = .error .aLotOfWords := by
    unfold correct_cmd; rw [if_pos h]
  have hw : word_info_cmd word = .error .aLotOfWords := by
    unfold word_info_cmd; rw [if_pos h]
  have hs : set_form_cmd word part number gender case_ tense person form kind
      = .error .aLotOfWords := by
    unfold set_form_cmd; rw [if_pos h]
  have hg : cognate_cmd word = .error .aLotOfWords := by
    unfold cognate_cmd; rw [if_pos h]
  have hy : synonym_cmd word = .error .aLotOfWords := by
    unfold synonym_cmd; rw [if_pos h]
  exact ⟨by rw [hc]; rfl, by rw [hw]; rfl, by rw [hs]; rfl, by rw [hg]; rfl, by rw [hy]; rfl⟩

/-- Claim C8 witness: the two-token input `"a b"` rejected by `correct`
without any event. -/
theorem single_word_guard_space_witness :
    single_op_send (fun _ => .ok Val.null) [] (correct_cmd "a b")
      = (.error .aLotOfWords, []) :=
  (single_word_guard_space (fun _ => .ok Val.null) [] "a b"
    Option.none Option.none Option.none Option.none Option.none Option.none
    Option.none Option.none (by decide)).1

/-- Claim C4 counterexample: the claim's own example is wrong on two
counts.  `numeral(number=1234, word="рубль")` with the default arguments
does NOT serialize to the flat object
`{"func":"numeral","number":"1234",...,"case":"nominative",...}`:
`generate_command` receives exactly the kwargs `func` and `pars`, so the
parameters are nested under a `"pars"` key, and `WordCase.NOMINATIVE` is
an `enum.Enum` member with value `1`, so `_prepare_arg` emits
`str(member.value) = "1"`, not the member's name. -/
theorem numeral_command_flat_shape_cex :
    numeral_cmd 1234 "рубль" (.enum 1) (.str "count") false (.str "string")
      ≠ .ok [("func", Val.str "numeral"), ("number", Val.str "1234"),
             ("word", Val.str "рубль"), ("case", Val.str "nominative"),
             ("direct", Val.str "count"), ("reduce", Val.str "false"),
             ("format", Val.str "string")] := by
  intro h
  have hact : numeral_cmd 1234 "рубль" (.enum 1) (.str "count") false (.str "string")
      = .ok [("func", Val.str "numeral"),
             ("pars", Val.obj [("number", Val.str "1234"), ("word", Val.str "рубль"),
                               ("case", Val.str "1"), ("direct", Val.str "count"),
                               ("reduce", Val.str "false"), ("format", Val.str "string")])] := rfl
  rw [hact] at h
  simp at h

/-- Claim C4 (amended): serializing a Command nests the parameters under a
`"pars"` key next to `"func"`; inside `pars`, integer-valued enum members
emit the decimal string of their value (`"case":"1"` for NOMINATIVE),
booleans emit lowercase `"true"`/`"false"`, integers their decimal
string, strings pass through, and `None` values are emitted as `""`
rather than omitted (`generate_command` omits only its own top-level
`None` kwargs and `_`-prefixed keys); in particular
`numeral(number=1234, word="рубль")` with defaults serializes to
`{"func":"numeral","pars":{"number":"1234","word":"рубль","case":"1",
"direct":"count","reduce":"false","format":"string"}}`. -/
theorem command_serialization_rules :
    numeral_cmd 1234 "рубль" (.enum 1) (.str "count") false (.str "string")
      = .ok [("func", Val.str "numeral"),
             ("pars", Val.obj [("number", Val.str "1234"), ("word", Val.str "рубль"),
                               ("case", Val.str "1"), ("direct", Val.str "count"),
                               ("reduce", Val.str "false"), ("format", Val.str "string")])] ∧
    (∀ n : Int, prepare_arg (.int n) = .str (toString n)) ∧
    (∀ b : Bool, prepare_arg (.bool b) = .str (if b then "true" else "false")) ∧
    (∀ v : Int, prepare_arg (.enum v) = .str (toString v)) ∧
    (∀ s : String, prepare_arg (.str s) = .str s) ∧
    prepare_arg .null = .str "" ∧
    (∀ kwargs : List (String × Val),
      generate_command kwargs
        = (kwargs.filter (fun p => !(pyStartsUnderscore p.1) && !(p.2.isNull))).map
            (fun p => (p.1, prepare_arg p.2))) := by
  refine ⟨rfl, ?_, ?_, ?_, ?_, ?_, fun kwargs => rfl⟩
  · intro n; rw [prepare_arg]
  · intro b; rw [prepare_arg]
  · intro v; rw [prepare_arg]
  · intro s; rw [prepare_arg]
  · rw [prepare_arg]

/-! ### The Result Selector (`choose_response`) -/

theorem probNum_den_pos (r : PyDict) : 0 < (probNum r).2 := by
  unfold probNum
  split
  · exact Nat.one_pos
  · exact Rat.den_pos _
  · exact Nat.one_pos

theorem keyLE_iff (r s : PyDict) : keyLE r s = true ↔ probKey r ≤ probKey s := by
  unfold keyLE probKey
  rw [decide_eq_true_eq]
  rw [div_le_div_iff₀ (by exact_mod_cast probNum_den_pos r) (by exact_mod_cast probNum_den_pos s)]
  constructor
  · intro h; exact_mod_cast h
  · intro h; exact_mod_cast h

theorem keyLT_iff (r s : PyDict) : keyLT r s = true ↔ probKey r < probKey s := by
  unfold keyLT
  rw [Bool.not_eq_true', Bool.eq_false_iff, Ne, keyLE_iff]
  exact not_le

theorem hasNumProb_truthy {r : PyDict} (h : hasNumProb r = true) :
    truthyO (objGet r "probability") = true := by
  unfold hasNumProb at h
  unfold truthyO
  cases hg : objGet r "probability" with
  | none => rw [hg] at h; cases h
  | some v => rw [hg] at h; cases v <;> simp_all [Val.truthy]

theorem sortByProb_head : ∀ l : List PyDict, (sortByProb l).head? = firstMinBy l
  | [] => rfl
  | x :: xs => by
    have ih := sortByProb_head xs
    show (insertAsc x (sortByProb xs)).head? = firstMinBy (x :: xs)
    unfold firstMinBy
    cases hf : firstMinBy xs with
    | none =>
      have hnil : sortByProb xs = [] := by
        rw [hf] at ih
        exact List.head?_eq_none_iff.mp ih
      rw [hnil]
      rfl
    | some m =>
      rw [hf] at ih
      obtain ⟨ys, hs⟩ : ∃ ys, sortByProb xs = m :: ys := by
        cases hsp : sortByProb xs with
        | nil => rw [hsp] at ih; cases ih
        | cons y ys =>
          rw [hsp] at ih
          simp only [List.head?_cons] at ih
          exact ⟨ys, by rw [Option.some_inj.mp ih]⟩
      rw [hs]
      simp only [insertAsc]
      by_cases hle : keyLE x m = true
      · rw [if_pos hle]
        have hlt : keyLT m x = false := by
          unfold keyLT
          rw [hle]
          rfl
        simp [hlt]
      · rw [if_neg hle]
        have hlt : keyLT m x = true := by
          unfold keyLT
          rw [Bool.eq_false_iff.mpr hle]
          rfl
        simp [hlt]

theorem mem_insertAsc {a x : PyDict} : ∀ {l : List PyDict}, a ∈ insertAsc x l → a = x ∨ a ∈ l := by
  intro l
  induction l with
  | nil =>
    intro h
    simp only [insertAsc] at h
    rcases List.mem_cons.mp h with rfl | h2
    · exact Or.inl rfl
    · exact absurd h2 (by simp)
  | cons y ys ih =>
    intro h
    simp only [insertAsc] at h
    by_cases hle : keyLE x y = true
    · rw [if_pos hle] at h
      rcases List.mem_cons.mp h with rfl | h2
      · exact Or.inl rfl
      · exact Or.inr h2
    · rw [if_neg hle] at h
      rcases List.mem_cons.mp h with rfl | h2
      · exact Or.inr (List.mem_cons_self _ _)
      · rcases ih h2 with rfl | h3
        · exact Or.inl rfl
        · exact Or.inr (List.mem_cons_of_mem _ h3)

theorem insertAsc_perm (x : PyDict) : ∀ l : List PyDict, (insertAsc x l).Perm (x :: l)
  | [] => List.Perm.refl _
  | y :: ys => by
    simp only [insertAsc]
    by_cases hle : keyLE x y = true
    · rw [if_pos hle]
    · rw [if_neg hle]
      exact ((insertAsc_perm x ys).cons y).trans (List.Perm.swap x y ys)

theorem sortByProb_perm : ∀ l : List PyDict, (sortByProb l).Perm l
  | [] => List.Perm.refl _
  | x :: xs => (insertAsc_perm x (sortByProb xs)).trans ((sortByProb_perm xs).cons x)

theorem pairwise_insertAsc (x : PyDict) :
    ∀ l : List PyDict, l.Pairwise (fun a b => probKey a ≤ probKey b) →
      (insertAsc x l).Pairwise (fun a b => probKey a ≤ probKey b)
  | [], _ => by simp [insertAsc]
  | y :: ys, h => by
    rcases List.pairwise_cons.mp h with ⟨hy, hys⟩
    simp only [insertAsc]
    by_cases hle : keyLE x y = true
    · rw [if_pos hle]
      have hxy : probKey x ≤ probKey y := (keyLE_iff x y).mp hle
      refine List.pairwise_cons.mpr ⟨?_, h⟩
      intro b hb
      rcases List.mem_cons.mp hb with rfl | hb2
      · exact hxy
      · exact hxy.trans (hy b hb2)
    · rw [if_neg hle]
      have hyx : probKey y ≤ probKey x :=
        le_of_not_le (fun hc => hle ((keyLE_iff x y).mpr hc))
      refine List.pairwise_cons.mpr ⟨?_, pairwise_insertAsc x ys hys⟩
      intro b hb
      rcases mem_insertAsc hb with rfl | hb2
      · exact hyx
      · exact hy b hb2

theorem sortByProb_pairwise : ∀ l : List PyDict,
    (sortByProb l).Pairwise (fun a b => probKey a ≤ probKey b)
  | [] => List.Pairwise.nil
  | x :: xs => pairwise_insertAsc x (sortByProb xs) (sortByProb_pairwise xs)

theorem firstMinBy_cons_ne_none (x : PyDict) (xs : List PyDict) :
    firstMinBy (x :: xs) ≠ Option.none := by
  unfold firstMinBy
  cases firstMinBy xs with
  | none => simp
  | some m => by_cases hlt : keyLT m x = true <;> simp [hlt]

theorem firstMinBy_decomp : ∀ (l : List PyDict) (m : PyDict), firstMinBy l = some m →
    ∃ pre post, l = pre ++ m :: post
      ∧ (∀ r ∈ pre, probKey m < probKey r)
      ∧ (∀ r ∈ post, probKey m ≤ probKey r)
  | [], m, h => by cases h
  | x :: xs, m, h => by
    cases hf : firstMinBy xs with
    | none =>
      have h2 : firstMinBy (x :: xs) = some x := by
        unfold firstMinBy
        rw [hf]
      rw [h2] at h
      obtain rfl : x = m := Option.some_inj.mp h
      have hnil : xs = [] := by
        cases xs with
        | nil => rfl
        | cons a as => exact absurd hf (firstMinBy_cons_ne_none a as)
      subst hnil
      exact ⟨[], [], rfl, by simp, by simp⟩
    | some m2 =>
      have h2 : firstMinBy (x :: xs) = if keyLT m2 x = true then some m2 else some x := by
        unfold firstMinBy
        rw [hf]
      rw [h2] at h
      rcases firstMinBy_decomp xs m2 hf with ⟨pre, post, hdec, hpre, hpost⟩
      have hall : ∀ r ∈ xs, probKey m2 ≤ probKey r := by
        intro r hr
        rw [hdec] at hr
        rcases List.mem_append.mp hr with hr2 | hr2
        · exact le_of_lt (hpre r hr2)
        · rcases List.mem_cons.mp hr2 with rfl | hr3
          · exact le_refl _
          · exact hpost r hr3
      by_cases hlt : keyLT m2 x = true
      · rw [if_pos hlt] at h
        obtain rfl : m2 = m := Option.some_inj.mp h
        refine ⟨x :: pre, post, by simp [hdec], ?_, hpost⟩
        intro r hr
        rcases List.mem_cons.mp hr with rfl | hr2
        · exact (keyLT_iff m2 r).mp hlt
        · exact hpre r hr2
      · rw [if_neg hlt] at h
        obtain rfl : x = m := Option.some_inj.mp h
        have hxm : probKey x ≤ probKey m2 :=
          le_of_not_lt (fun hc => hlt ((keyLT_iff m2 x).mpr hc))
        refine ⟨[], xs, rfl, by simp, ?_⟩
        intro r hr
        exact hxm.trans (hall r hr)

/-- Claim C5: for every non-empty candidate list in which every candidate
has a truthy (numeric) `"probability"`, `choose_response` returns the
first element attaining the minimum probability (minimum value, ties
broken by original order — the stable sort's head); for every list in
which some candidate lacks a truthy probability, it returns the first
candidate as given; for the empty list it returns `None`.  The last
conjunct unfolds what `firstMinBy` means: the selected candidate splits
the list so that everything before it has strictly greater key and
everything after it has greater-or-equal key. -/
theorem choose_response_selects_first_minimum (l : List PyDict) :
    choose_response ([] : List PyDict) = Option.none
    ∧ (l ≠ [] → l.all (fun r => truthyO (objGet r "probability")) = false →
        choose_response l = l.head?)
    ∧ ((∀ r ∈ l, hasNumProb r = true) → choose_response l = firstMinBy l)
    ∧ (∀ m, firstMinBy l = some m →
        ∃ pre post, l = pre ++ m :: post
          ∧ (∀ r ∈ pre, probKey m < probKey r)
          ∧ (∀ r ∈ post, probKey m ≤ probKey r)) := by
  refine ⟨rfl, ?_, ?_, fun m h => firstMinBy_decomp l m h⟩
  · intro hne hall
    have hie : l.isEmpty = false := by
      cases l with
      | nil => exact absurd rfl hne
      | cons c cs => rfl
    unfold choose_response choose_response_run
    simp [hie, hall]
  · revert l
    intro l
    cases l with
    | nil => intro _; rfl
    | cons x xs =>
      intro hnum
      have hall : (x :: xs).all (fun r => truthyO (objGet r "probability")) = true := by
        rw [List.all_eq_true]
        intro r hr
        exact hasNumProb_truthy (hnum r hr)
      unfold choose_response choose_response_run
      simp only [List.isEmpty_cons, Bool.false_eq_true, if_false, hall, if_true]
      exact sortByProb_head (x :: xs)

/-- Claim C5 witness: three candidates with probabilities 3, 2, 2 — the
selection is the stable minimum, i.e. the second candidate. -/
theorem choose_response_selects_first_minimum_witness :
    choose_response
        [[("probability", Val.int 3)], [("probability", Val.int 2)],
         [("word", Val.str "a"), ("probability", Val.int 2)]]
      = firstMinBy
        [[("probability", Val.int 3)], [("probability", Val.int 2)],
         [("word", Val.str "a"), ("probability", Val.int 2)]] :=
  (choose_response_selects_first_minimum _).2.2.1 (by decide)

/-- Claim C10: `choose_response` mutates its argument (the second
component of `choose_response_run` is the caller's list after the call):
when all candidates carry a truthy (numeric) probability the list is
reordered in place into ascending probability order (a permutation of the
input, pairwise sorted by key); when some candidate lacks a truthy
probability, and for the empty list, the caller's list is left
unchanged. -/
theorem choose_response_mutation_frame (l : List PyDict) :
    ((∀ r ∈ l, hasNumProb r = true) →
      (choose_response_run l).2.Perm l ∧
      (choose_response_run l).2.Pairwise (fun a b => probKey a ≤ probKey b)) ∧
    (l.all (fun r => truthyO (objGet r "probability")) = false →
      (choose_response_run l).2 = l) ∧
    (l = [] → (choose_response_run l).2 = l) := by
  refine ⟨?_, ?_, fun hl => by subst hl; rfl⟩
  · revert l
    intro l
    cases l with
    | nil => intro _; exact ⟨List.Perm.refl _, List.Pairwise.nil⟩
    | cons x xs =>
      intro hnum
      have hall : (x :: xs).all (fun r => truthyO (objGet r "probability")) = true := by
        rw [List.all_eq_true]
        intro r hr
        exact hasNumProb_truthy (hnum r hr)
      unfold choose_response_run
      simp only [List.isEmpty_cons, Bool.false_eq_true, if_false, hall, if_true]
      exact ⟨sortByProb_perm _, sortByProb_pairwise _⟩
  · revert l
    intro l
    cases l with
    | nil => intro hfalse; cases hfalse
    | cons x xs =>
      intro hfalse
      unfold choose_response_run
      simp [hfalse]

/-- Claim C10 witness: a list whose probabilities are 3, 2, 2 is reordered
into a permutation of itself (ascending 2, 2, 3). -/
theorem choose_response_mutation_frame_witness :
    (choose_response_run
        [[("probability", Val.int 3)], [("probability", Val.int 2)],
         [("word", Val.str "a"), ("probability", Val.int 2)]]).2.Perm
      [[("probability", Val.int 3)], [("probability", Val.int 2)],
       [("word", Val.str "a"), ("probability", Val.int 2)]] :=
  ((choose_response_mutation_frame _).1 (by decide)).1

/-! ### The Response Classifier (`check_result`) -/

/-- Claim C6: for every response whose classified object (the decoded
body, or the first element of a decoded array body — `classify_decoded`)
carries an `"error"` field of the documented wire shape (a non-empty
object `{"message": …, "status": …}`), classification raises `APIError`
with the message and status extracted from that field, regardless of the
HTTP status code. -/
theorem check_result_error_field_precedence (statusCode : Nat) (body : String)
    (decoded : Option Val) (fs ef : List (String × Val))
    (hc : classify_decoded decoded = Except.ok (Val.obj fs))
    (he : objGet fs "error" = some (Val.obj ef))
    (hne : ef ≠ []) :
    check_result "text/html" statusCode body decoded
      = .error (.apiError (pyStr (objGet ef "message") ++ " [" ++ pyStr (objGet ef "status") ++ "]")) := by
  have ht : (Val.obj ef).truthy = true := by
    cases ef with
    | nil => exact absurd rfl hne
    | cons a l => rfl
  unfold check_result
  rw [if_neg (by simp), hc]
  simp only [errorField, he, ht, if_true]

/-- Claim C6 witness: body `{"error":{"message":"bad","status":"400"}}`
with HTTP status 200 raises `APIError` with message `"bad [400]"`. -/
theorem check_result_error_field_precedence_witness :
    check_result "text/html" 200 ""
        (some (.obj [("error", Val.obj [("message", Val.str "bad"), ("status", Val.str "400")])]))
      = .error (.apiError "bad [400]") :=
  check_result_error_field_precedence 200 ""
    (some (.obj [("error", Val.obj [("message", Val.str "bad"), ("status", Val.str "400")])]))
    [("error", Val.obj [("message", Val.str "bad"), ("status", Val.str "400")])]
    [("message", Val.str "bad"), ("status", Val.str "400")]
    rfl rfl (by simp)

/-- Claim C2 counterexample: for a decoded body that is an array of two
per-command result arrays (expected page type, HTTP 200, no error field),
`check_result` does NOT return the full array: the wire-quirk unwrap
`result_json = result_json[0]` is what gets returned, so only the FIRST
per-command array comes back. -/
theorem check_result_not_full_array_cex :
    check_result "text/html" 200 ""
        (some (.arr [.arr [.obj [("word", Val.str "x")]], .arr [.obj [("word", Val.str "y")]]]))
      = .ok (.arr [.obj [("word", Val.str "x")]]) ∧
    ¬ check_result "text/html" 200 ""
        (some (.arr [.arr [.obj [("word", Val.str "x")]], .arr [.obj [("word", Val.str "y")]]]))
      = .ok (.arr [.arr [.obj [("word", Val.str "x")]], .arr [.obj [("word", Val.str "y")]]]) := by
  constructor
  · rfl
  · intro h
    have hx : check_result "text/html" 200 ""
        (some (.arr [.arr [.obj [("word", Val.str "x")]], .arr [.obj [("word", Val.str "y")]]]))
      = .ok (.arr [.obj [("word", Val.str "x")]]) := rfl
    rw [hx] at h
    simp at h

/-- Claim C2 (amended): for every response with the expected page type,
an HTTP status in 200–226, and no truthy `"error"` field on the
classified object, `check_result` returns the classified object: the
decoded body itself when it is not an array, and its FIRST element when
the decoded body is an array (so for an array of per-command result
arrays, the first per-command array is returned, not the full array). -/
theorem check_result_success_passthrough (statusCode : Nat) (body : String)
    (decoded : Option Val) (j : Val)
    (h200 : 200 ≤ statusCode) (h226 : statusCode ≤ 226)
    (hc : classify_decoded decoded = Except.ok j)
    (hne : noTruthyError j = true) :
    check_result "text/html" statusCode body decoded = .ok j := by
  have hdisp : statusDispatch statusCode body j = .ok j := by
    unfold statusDispatch
    rw [if_pos ⟨h200, h226⟩]
  unfold noTruthyError at hne
  unfold check_result
  rw [if_neg (by simp), hc]
  cases he : errorField j with
  | none => simpa only [he] using hdisp
  | some e =>
    have hef : e.truthy = false := by
      rw [he] at hne
      simpa [truthyO] using hne
    simp only [he, hef, Bool.false_eq_true, if_false]
    exact hdisp

/-- Claim C2 witness: a plain dict body at status 200 is passed through
unchanged. -/
theorem check_result_success_passthrough_witness :
    check_result "text/html" 200 "" (some (.obj [("ok", Val.int 1)]))
      = .ok (.obj [("ok", Val.int 1)]) :=
  check_result_success_passthrough 200 "" (some (.obj [("ok", Val.int 1)]))
    (.obj [("ok", Val.int 1)]) (by decide) (by decide) rfl rfl

/-! ### Shaping lemmas -/

theorem mapExc_ok_length {α β : Type} (f : α → Except Exc β) :
    ∀ {l : List α} {l2 : List β}, mapExc f l = .ok l2 → l2.length = l.length
  | [], l2, h => by
    obtain rfl : ([] : List β) = l2 := (Except.ok.injEq _ _).mp h
    rfl
  | x :: xs, l2, h => by
    have h2 : (match f x with
        | .error e => Except.error e
        | .ok y =>
          match mapExc f xs with
          | .error e => Except.error e
          | .ok ys => Except.ok (y :: ys)) = Except.ok l2 := h
    cases hf : f x with
    | error e => rw [hf] at h2; cases h2
    | ok y =>
      rw [hf] at h2
      cases hm : mapExc f xs with
      | error e => rw [hm] at h2; cases h2
      | ok ys =>
        rw [hm] at h2
        obtain rfl : y :: ys = l2 := (Except.ok.injEq _ _).mp h2
        simp [mapExc_ok_length f hm]

theorem mapExc_ok_get {α β : Type} (f : α → Except Exc β) :
    ∀ {l : List α} {l2 : List β}, mapExc f l = .ok l2 →
      ∀ i (h1 : i < l.length) (h2 : i < l2.length),
        f (l.get ⟨i, h1⟩) = .ok (l2.get ⟨i, h2⟩)
  | [], _, _, i, h1, _ => absurd h1 (by simp)
  | x :: xs, l2, h, i, h1, h2 => by
    have hh : (match f x with
        | .error e => Except.error e
        | .ok y =>
          match mapExc f xs with
          | .error e => Except.error e
          | .ok ys => Except.ok (y :: ys)) = Except.ok l2 := h
    cases hf : f x with
    | error e => rw [hf] at hh; cases hh
    | ok y =>
      rw [hf] at hh
      cases hm : mapExc f xs with
      | error e => rw [hm] at hh; cases hh
      | ok ys =>
        rw [hm] at hh
        obtain rfl : y :: ys = l2 := (Except.ok.injEq _ _).mp hh
        cases i with
        | zero => simpa using hf
        | succ j =>
          have hj1 : j < xs.length := by simpa using h1
          have hj2 : j < ys.length := by simpa using h2
          simpa using mapExc_ok_get f hm j hj1 hj2

theorem sign_go_ok_fst (rs : List Val) :
    ∀ (i : Nat) (fl : List (Option Val)) (out : List (Option Val × Val)),
      sign_go rs i fl = .ok out → out.map Prod.fst = fl
  | _, [], out, h => by
    obtain rfl : ([] : List (Option Val × Val)) = out := (Except.ok.injEq _ _).mp h
    rfl
  | i, f :: fs, out, h => by
    have hh : (match rs.get? i with
        | some r =>
          match sign_go rs (i + 1) fs with
          | .ok rest => Except.ok ((f, r) :: rest)
          | .error e => Except.error e
        | Option.none => Except.error Exc.indexError) = Except.ok out := h
    cases hr : rs.get? i with
    | none => rw [hr] at hh; cases hh
    | some r =>
      rw [hr] at hh
      cases hg : sign_go rs (i + 1) fs with
      | error e => rw [hg] at hh; cases hh
      | ok rest =>
        rw [hg] at hh
        obtain rfl : (f, r) :: rest = out := (Except.ok.injEq _ _).mp hh
        simp [sign_go_ok_fst rs (i + 1) fs rest hg]

theorem wordEntry_none_iff {v : Val} {e : Option WordObject} (h : wordEntry v = .ok e) :
    e = Option.none ↔ v.truthy = false := by
  unfold wordEntry at h
  cases ht : v.truthy with
  | false =>
    rw [ht] at h
    simp only [Bool.false_eq_true, if_false] at h
    obtain rfl : (Option.none : Option WordObject) = e := (Except.ok.injEq _ _).mp h
    simp
  | true =>
    rw [ht] at h
    simp only [if_true] at h
    constructor
    · intro he
      subst he
      exfalso
      cases v with
      | obj fs =>
        have h2 : (match WordObject.ofKwargs fs with
            | .ok w => Except.ok (some w)
            | .error e2 => Except.error e2) = Except.ok (Option.none : Option WordObject) := h
        cases hk : WordObject.ofKwargs fs with
        | ok w => rw [hk] at h2; simp at h2
        | error e2 => rw [hk] at h2; cases h2
      | null => cases h
      | bool b => cases h
      | int n => cases h
      | num q => cases h
      | str s2 => cases h
      | enum v2 => cases h
      | arr l => cases h
    · intro hf
      exact Bool.noConfusion hf

theorem wrapWords_shape {r : Val} {o : Output} (h : wrapWords r = .ok o) :
    ∃ ws, o = Output.words ws := by
  unfold wrapWords at h
  by_cases ht : r.truthy = true
  · rw [if_pos ht] at h
    cases r with
    | arr ws =>
      have h2 : (match mapExc wordEntry ws with
          | .ok es => Except.ok (Output.words (some es))
          | .error e => Except.error e) = Except.ok o := h
      cases hm : mapExc wordEntry ws with
      | error e => rw [hm] at h2; cases h2
      | ok es =>
        rw [hm] at h2
        exact ⟨some es, ((Except.ok.injEq _ _).mp h2).symm⟩
    | null => cases h
    | bool b => cases h
    | int n => cases h
    | num q => cases h
    | str s => cases h
    | enum v => cases h
    | obj fs => cases h
  · rw [if_neg ht] at h
    exact ⟨Option.none, ((Except.ok.injEq _ _).mp h).symm⟩

theorem wrapSelected_shape {r : Val} {o : Output} (h : wrapSelected r = .ok o) :
    ∃ w, o = Output.selected w := by
  unfold wrapSelected at h
  by_cases ht : r.truthy = true
  · rw [if_pos ht] at h
    cases r with
    | arr cs =>
      have h2 : (match mapExc asDict cs with
          | .ok ds =>
            match choose_response ds with
            | some d =>
              match WordObject.ofKwargs d with
              | .ok w => Except.ok (Output.selected (some w))
              | .error e => Except.error e
            | Option.none => Except.error Exc.typeError
          | .error e => Except.error e) = Except.ok o := h
      cases hm : mapExc asDict cs with
      | error e => rw [hm] at h2; cases h2
      | ok ds =>
        rw [hm] at h2
        have h3 : (match choose_response ds with
            | some d =>
              match WordObject.ofKwargs d with
              | .ok w => Except.ok (Output.selected (some w))
              | .error e => Except.error e
            | Option.none => Except.error Exc.typeError) = Except.ok o := h2
        cases hcr : choose_response ds with
        | none => rw [hcr] at h3; cases h3
        | some d =>
          rw [hcr] at h3
          have h4 : (match WordObject.ofKwargs d with
              | .ok w => Except.ok (Output.selected (some w))
              | .error e => Except.error e) = Except.ok o := h3
          cases hk : WordObject.ofKwargs d with
          | error e => rw [hk] at h4; cases h4
          | ok w =>
            rw [hk] at h4
            exact ⟨some w, ((Except.ok.injEq _ _).mp h4).symm⟩
    | null => cases h
    | bool b => cases h
    | int n => cases h
    | num q => cases h
    | str s => cases h
    | enum v => cases h
    | obj fs => cases h
  · rw [if_neg ht] at h
    exact ⟨Option.none, ((Except.ok.injEq _ _).mp h).symm⟩

theorem wrapNumeral_shape {r : Val} {o : Output} (h : wrapNumeral r = .ok o) :
    ∃ n, o = Output.numeralOut n := by
  unfold wrapNumeral at h
  by_cases ht : r.truthy = true
  · rw [if_pos ht] at h
    cases r with
    | arr cs =>
      have h2 : (match mapExc asDict cs with
          | .ok ds =>
            match choose_response ds with
            | some d =>
              match NumeralObject.ofKwargs d with
              | .ok n => Except.ok (Output.numeralOut (some n))
              | .error e => Except.error e
            | Option.none => Except.error Exc.typeError
          | .error e => Except.error e) = Except.ok o := h
      cases hm : mapExc asDict cs with
      | error e => rw [hm] at h2; cases h2
      | ok ds =>
        rw [hm] at h2
        have h3 : (match choose_response ds with
            | some d =>
              match NumeralObject.ofKwargs d with
              | .ok n => Except.ok (Output.numeralOut (some n))
              | .error e => Except.error e
            | Option.none => Except.error Exc.typeError) = Except.ok o := h2
        cases hcr : choose_response ds with
        | none => rw [hcr] at h3; cases h3
        | some d =>
          rw [hcr] at h3
          have h4 : (match NumeralObject.ofKwargs d with
              | .ok n => Except.ok (Output.numeralOut (some n))
              | .error e => Except.error e) = Except.ok o := h3
          cases hk : NumeralObject.ofKwargs d with
          | error e => rw [hk] at h4; cases h4
          | ok n =>
            rw [hk] at h4
            exact ⟨some n, ((Except.ok.injEq _ _).mp h4).symm⟩
    | null => cases h
    | bool b => cases h
    | int n => cases h
    | num q => cases h
    | str s => cases h
    | enum v => cases h
    | obj fs => cases h
  · rw [if_neg ht] at h
    exact ⟨Option.none, ((Except.ok.injEq _ _).mp h).symm⟩

theorem wrapSpeller_shape {r : Val} {o : Output} (h : wrapSpeller r = .ok o) :
    ∃ sp, o = Output.spellerOut sp := by
  unfold wrapSpeller at h
  by_cases ht : r.truthy = true
  · rw [if_pos ht] at h
    cases r with
    | obj fs =>
      have h2 : (match SpellerObject.ofKwargs fs with
          | .ok s => Except.ok (Output.spellerOut (some s))
          | .error e => Except.error e) = Except.ok o := h
      cases hk : SpellerObject.ofKwargs fs with
      | error e => rw [hk] at h2; cases h2
      | ok s =>
        rw [hk] at h2
        exact ⟨some s, ((Except.ok.injEq _ _).mp h2).symm⟩
    | null => cases h
    | bool b => cases h
    | int n => cases h
    | num q => cases h
    | str s => cases h
    | enum v => cases h
    | arr l => cases h
  · rw [if_neg ht] at h
    exact ⟨Option.none, ((Except.ok.injEq _ _).mp h).symm⟩

theorem wrapText_shape {r : Val} {o : Output} (h : wrapText r = .ok o) :
    ∃ t, o = Output.textOut t := by
  unfold wrapText at h
  by_cases ht : r.truthy = true
  · rw [if_pos ht] at h
    cases r with
    | arr xs =>
      cases xs with
      | nil => cases h
      | cons x rest =>
        cases x with
        | obj fs => exact ⟨objGet fs "text", ((Except.ok.injEq _ _).mp h).symm⟩
        | null => cases h
        | bool b => cases h
        | int n => cases h
        | num q => cases h
        | str s => cases h
        | enum v => cases h
        | arr l => cases h
    | null => cases h
    | bool b => cases h
    | int n => cases h
    | num q => cases h
    | str s => cases h
    | enum v => cases h
    | obj fs => cases h
  · rw [if_neg ht] at h
    exact ⟨Option.none, ((Except.ok.injEq _ _).mp h).symm⟩

theorem wrap_response_shaped {f : Option Val} {r : Val} {o : Output}
    (h : wrap_response f r = .ok o) : shapedPer f o := by
  unfold wrap_response at h
  unfold shapedPer
  cases hf : fname f with
  | none =>
    rw [hf] at h
    have h2 : Except.ok Output.nothing = Except.ok o := h
    show o = Output.nothing
    exact ((Except.ok.injEq _ _).mp h2).symm
  | some s =>
    rw [hf] at h
    have h2 : (if s = "correct" ∨ s = "hint" ∨ s = "cognate" ∨ s = "synonym" then wrapWords r
        else if s = "word" ∨ s = "setform" then wrapSelected r
        else if s = "numeral" then wrapNumeral r
        else if s = "speller" then wrapSpeller r
        else if s = "lattocyr" then wrapText r
        else Except.ok Output.nothing) = Except.ok o := h
    show (if s = "correct" ∨ s = "hint" ∨ s = "cognate" ∨ s = "synonym" then ∃ ws, o = Output.words ws
      else if s = "word" ∨ s = "setform" then ∃ w, o = Output.selected w
      else if s = "numeral" then ∃ n, o = Output.numeralOut n
      else if s = "speller" then ∃ sp, o = Output.spellerOut sp
      else if s = "lattocyr" then ∃ t, o = Output.textOut t
      else o = Output.nothing)
    split_ifs at h2 ⊢ with hc1 hc2 hc3 hc4 hc5
    · exact wrapWords_shape h2
    · exact wrapSelected_shape h2
    · exact wrapNumeral_shape h2
    · exact wrapSpeller_shape h2
    · exact wrapText_shape h2
    · exact ((Except.ok.injEq _ _).mp h2).symm

/-! ### Per-candidate shaping (CORRECT/HINT/COGNATE/SYNONYM) -/

/-- Claim C7 counterexample: the comprehension is
`[WordObject(**word) if word else None for word in response]` — a falsy
candidate is NOT skipped: it produces a `None` placeholder entry.  For the
candidate list `[null]` the shaped result is the one-element list
`[None]`, not an empty list. -/
theorem wrap_words_null_placeholder_cex :
    wrap_response (some (Val.str "correct")) (.arr [Val.null])
      = .ok (.words (some [Option.none])) ∧
    ([Option.none] : List (Option WordObject)) ≠ [] :=
  ⟨rfl, by simp⟩

/-- Claim C7 (amended): for every CORRECT, HINT, COGNATE or SYNONYM
command whose raw result is a (non-empty) candidate array, the shaped
result is a list with EXACTLY one entry per raw candidate, where a falsy
candidate yields a `None` placeholder entry (not an absent entry, and not
an empty record) and a truthy candidate yields a `WordObject` record: the
output entry is `None` exactly when the candidate is falsy. -/
theorem wrap_words_placeholder_per_candidate (s : String) (xs : List Val)
    (ys : List (Option WordObject))
    (hs : s = "correct" ∨ s = "hint" ∨ s = "cognate" ∨ s = "synonym")
    (hok : wrap_response (some (Val.str s)) (.arr xs) = .ok (.words (some ys))) :
    ys.length = xs.length ∧
    ∀ i (hx : i < xs.length) (hy : i < ys.length),
      (ys.get ⟨i, hy⟩ = Option.none ↔ (xs.get ⟨i, hx⟩).truthy = false) := by
  have hw : wrapWords (.arr xs) = .ok (.words (some ys)) := by
    unfold wrap_response at hok
    have h2 : (if s = "correct" ∨ s = "hint" ∨ s = "cognate" ∨ s = "synonym" then wrapWords (.arr xs)
        else if s = "word" ∨ s = "setform" then wrapSelected (.arr xs)
        else if s = "numeral" then wrapNumeral (.arr xs)
        else if s = "speller" then wrapSpeller (.arr xs)
        else if s = "lattocyr" then wrapText (.arr xs)
        else Except.ok Output.nothing) = .ok (.words (some ys)) := hok
    rwa [if_pos hs] at h2
  unfold wrapWords at hw
  by_cases ht : (Val.arr xs).truthy = true
  · rw [if_pos ht] at hw
    have h2 : (match mapExc wordEntry xs with
        | .ok es => Except.ok (Output.words (some es))
        | .error e => Except.error e) = Except.ok (Output.words (some ys)) := hw
    cases hm : mapExc wordEntry xs with
    | error e => rw [hm] at h2; cases h2
    | ok es =>
      rw [hm] at h2
      obtain rfl : es = ys := by
        have h3 := (Except.ok.injEq _ _).mp h2
        have h4 := (Output.words.injEq _ _).mp h3
        exact Option.some_inj.mp h4
      refine ⟨mapExc_ok_length wordEntry hm, ?_⟩
      intro i hx hy
      exact wordEntry_none_iff (mapExc_ok_get wordEntry hm i hx hy)
  · rw [if_neg ht] at hw
    have h2 : Except.ok (Output.words (Option.none : Option (List (Option WordObject))))
        = Except.ok (Output.words (some ys)) := hw
    exact absurd h2 (by simp)

/-- Claim C7 witness: candidates `[null, {"word": "опечатка"}]` shape to
two entries — a `None` placeholder and a record. -/
theorem wrap_words_placeholder_per_candidate_witness :
    ([Option.none, some { word := Val.str "опечатка" }] : List (Option WordObject)).length
      = ([Val.null, Val.obj [("word", Val.str "опечатка")]] : List Val).length :=
  (wrap_words_placeholder_per_candidate "correct"
    [Val.null, Val.obj [("word", Val.str "опечатка")]]
    [Option.none, some { word := Val.str "опечатка" }]
    (Or.inl rfl) rfl).1

/-! ### Batch reconciliation (`send_request`) -/

/-- Claim C1: for every batch of N submitted commands and every raw
response array of N per-command result arrays (the transport's value, in
submission order), a successful `send_request` returns a reconciled
output list of length N whose element i is shaped according to the
operation kind of command i (`shapedPer`: word-analysis list for
CORRECT/HINT/COGNATE/SYNONYM, selected word analysis for WORD/SET_FORM,
numeral expansion for NUMERAL, spelling report for SPELLER, plain text
for LAT_TO_CYR), regardless of which kinds appear and in what order. -/
theorem send_request_reconciles_in_order
    (transport : Val → Except Exc Val) (pending : List Cmd)
    (responses : List Val) (outs : List Output) (evs : List Ev)
    (hT : transport (generate_payload pending) = .ok (.arr responses))
    (hlen : responses.length = pending.length)
    (hok : send_request_traced transport pending = (.ok outs, evs)) :
    outs.length = pending.length ∧
    ∀ i (hp : i < pending.length) (ho : i < outs.length),
      shapedPer (objGet (pending.get ⟨i, hp⟩) "func") (outs.get ⟨i, ho⟩) := by
  cases hpe : pending.isEmpty with
  | true =>
    unfold send_request_traced at hok
    rw [hpe] at hok
    simp only [if_true] at hok
    exact absurd ((Prod.mk.injEq _ _ _ _).mp hok).1 (by simp)
  | false =>
    unfold send_request_traced at hok
    rw [hpe] at hok
    simp only [Bool.false_eq_true, if_false] at hok
    have hres : send_request_result transport (get_func_list pending) (generate_payload pending)
        = .ok outs := ((Prod.mk.injEq _ _ _ _).mp hok).1
    unfold send_request_result at hres
    rw [hT] at hres
    have hres2 : (match sign_responses (get_func_list pending) responses with
        | .error e => Except.error e
        | .ok signed => mapExc (fun p => wrap_response p.1 p.2) signed) = Except.ok outs := hres
    cases hsg : sign_responses (get_func_list pending) responses with
    | error e => rw [hsg] at hres2; cases hres2
    | ok signed =>
      rw [hsg] at hres2
      have hfst : signed.map Prod.fst = get_func_list pending :=
        sign_go_ok_fst responses 0 (get_func_list pending) signed hsg
      have houts_len : outs.length = signed.length := mapExc_ok_length _ hres2
      have hsig_len : signed.length = pending.length := by
        have h1 : (signed.map Prod.fst).length = (get_func_list pending).length := by
          rw [hfst]
        simpa [get_func_list] using h1
      refine ⟨by rw [houts_len, hsig_len], ?_⟩
      intro i hp ho
      have hi_s : i < signed.length := by rw [hsig_len]; exact hp
      have hw := mapExc_ok_get (fun p => wrap_response p.1 p.2) hres2 i hi_s ho
      have hfi : (signed.get ⟨i, hi_s⟩).1 = objGet (pending.get ⟨i, hp⟩) "func" := by
        have h1 : (signed.map Prod.fst).get ⟨i, by simpa using hi_s⟩
            = (signed.get ⟨i, hi_s⟩).1 := by
          simp
        rw [← h1, List.get_of_eq hfst]
        simp [get_func_list]
      rw [hfi] at hw
      exact wrap_response_shaped hw

/-- Claim C1 witness: a CORRECT, WORD_INFO, NUMERAL batch against a
3-element raw response array reconciles to 3 outputs (empty raw arrays
shape to the `None` variant of each kind). -/
theorem send_request_reconciles_in_order_witness :
    ([Output.words Option.none, Output.selected Option.none, Output.numeralOut Option.none]).length
      = ([[("func", Val.str "correct"), ("pars", Val.obj [("word", Val.str "очепатка")])],
          [("func", Val.str "word"), ("pars", Val.obj [("word", Val.str "дом")])],
          [("func", Val.str "numeral"), ("pars", Val.obj [("number", Val.str "5")])]] : List Cmd).length :=
  (send_request_reconciles_in_order
    (fun _ => .ok (.arr [.arr [], .arr [], .arr []]))
    [[("func", Val.str "correct"), ("pars", Val.obj [("word", Val.str "очепатка")])],
     [("func", Val.str "word"), ("pars", Val.obj [("word", Val.str "дом")])],
     [("func", Val.str "numeral"), ("pars", Val.obj [("number", Val.str "5")])]]
    [.arr [], .arr [], .arr []]
    [Output.words Option.none, Output.selected Option.none, Output.numeralOut Option.none]
    [Ev.payloadBuilt (generate_payload
        [[("func", Val.str "correct"), ("pars", Val.obj [("word", Val.str "очепатка")])],
         [("func", Val.str "word"), ("pars", Val.obj [("word", Val.str "дом")])],
         [("func", Val.str "numeral"), ("pars", Val.obj [("number", Val.str "5")])]]),
     Ev.transportCalled (generate_payload
        [[("func", Val.str "correct"), ("pars", Val.obj [("word", Val.str "очепатка")])],
         [("func", Val.str "word"), ("pars", Val.obj [("word", Val.str "дом")])],
         [("func", Val.str "numeral"), ("pars", Val.obj [("number", Val.str "5")])]]) []]
    rfl rfl rfl).1

end Textit
